import Mathlib

/-!
Shallow embedding of the rocket motion controller from `src/script.js`
(the animated hero element: launch state machine, per-frame steering
integration, edge repulsion, wander, and waypoint selection).
JS numbers are modelled as real numbers; `Math.atan2`, `Math.hypot`,
`Math.cos`/`Math.sin` are modelled by their exact real counterparts.
Randomness (`Math.random()`) is modelled by an explicit stream
`rnd : ℕ → ℝ` of values in `[0, 1)` together with a cursor index.
-/

namespace Rocket

noncomputable section

open Real

open scoped Classical

/-- `clamp` from script.js line 69: `Math.min(hi, Math.max(lo, v))`. -/
def clamp (v lo hi : ℝ) : ℝ := min hi (max lo v)

/-- Tunable constants, script.js lines 33-53. -/
def SPEED : ℝ := 160

def BASE_MAX_TURN : ℝ := Real.pi * 1.1

def AVOID_MARGIN : ℝ := 140

def AVOID_GAIN : ℝ := 2.0

def WANDER_MAX : ℝ := Real.pi / 5

def WANDER_JITTER : ℝ := Real.pi / 24

def WANDER_SMOOTH_RATE : ℝ := 5.0

def WAYPOINT_GAIN : ℝ := 0.35

def WAYPOINT_MARGIN : ℝ := 100

def WAYPOINT_REACH_DIST : ℝ := 90

def WAYPOINT_TIMEOUT_MS : ℝ := 10000

def LAUNCH_ACCEL_DURATION : ℝ := 1000

/-- script.js line 54: `(t) => (t <= 0 ? 0 : t >= 1 ? 1 : t * t * (3 - 2 * t))`. -/
def EASE_IN_OUT (t : ℝ) : ℝ := if t ≤ 0 then 0 else if 1 ≤ t then 1 else t * t * (3 - 2 * t)

/-- `Math.atan2 y x`, modelled as the principal argument of `x + y i`. -/
def atan2 (y x : ℝ) : ℝ := Complex.arg (x + y * Complex.I)

/-- script.js line 70: `Math.atan2(Math.sin(a), Math.cos(a))`. -/
def normalizeAngle (a : ℝ) : ℝ := atan2 (Real.sin a) (Real.cos a)

/-- script.js line 71: clamp `t` to `[0,1]` then `t * t * (3 - 2 * t)`. -/
def smoothStep01 (t : ℝ) : ℝ := clamp t 0 1 * clamp t 0 1 * (3 - 2 * clamp t 0 1)

/-- `Math.hypot a b`. -/
def hypot (a b : ℝ) : ℝ := Real.sqrt (a ^ 2 + b ^ 2)

/-- `Math.hypot a b || 1`: the JS falsy-guard substitutes 1 for a zero length. -/
def safeLen (a b : ℝ) : ℝ := if hypot a b = 0 then 1 else hypot a b

/-- The three launch phases, script.js line 57. -/
inductive Mode
  | idle
  | launching
  | flight
  deriving DecidableEq

/-- The module-level mutable state of the controller (script.js lines 14-66),
including the measured boundary (`width`, `height`) and the half footprint of
the element (`halfW`, `halfH`). -/
structure RState where
  mode : Mode
  currentSpeed : ℝ
  x : ℝ
  y : ℝ
  heading : ℝ
  wanderOffset : ℝ
  wanderTarget : ℝ
  waypointX : ℝ
  waypointY : ℝ
  waypointDeadline : ℝ
  launchStart : ℝ
  width : ℝ
  height : ℝ
  halfW : ℝ
  halfH : ℝ

/-- The left-edge repulsion contribution (script.js lines 148, 152). -/
def leftTerm (px : ℝ) : ℝ :=
  if 0 < (AVOID_MARGIN - px) / AVOID_MARGIN then
    smoothStep01 ((AVOID_MARGIN - px) / AVOID_MARGIN)
  else 0

/-- The right-edge repulsion contribution (script.js lines 149, 153). -/
def rightTerm (w px : ℝ) : ℝ :=
  if 0 < (AVOID_MARGIN - (w - px)) / AVOID_MARGIN then
    smoothStep01 ((AVOID_MARGIN - (w - px)) / AVOID_MARGIN)
  else 0

/-- The top-edge repulsion contribution (script.js lines 150, 154). -/
def topTerm (py : ℝ) : ℝ :=
  if 0 < (AVOID_MARGIN - py) / AVOID_MARGIN then
    smoothStep01 ((AVOID_MARGIN - py) / AVOID_MARGIN)
  else 0

/-- The bottom-edge repulsion contribution (script.js lines 151, 155). -/
def bottomTerm (h py : ℝ) : ℝ :=
  if 0 < (AVOID_MARGIN - (h - py)) / AVOID_MARGIN then
    smoothStep01 ((AVOID_MARGIN - (h - py)) / AVOID_MARGIN)
  else 0

/-- script.js lines 146-157: per-edge smoothstepped repulsion, summed per axis
and scaled by `AVOID_GAIN`. -/
def edgeRepulsion (w h px py : ℝ) : ℝ × ℝ :=
  let leftT := (AVOID_MARGIN - px) / AVOID_MARGIN
  let rightT := (AVOID_MARGIN - (w - px)) / AVOID_MARGIN
  let topT := (AVOID_MARGIN - py) / AVOID_MARGIN
  let bottomT := (AVOID_MARGIN - (h - py)) / AVOID_MARGIN
  let fx := (if 0 < leftT then smoothStep01 leftT else 0)
    - (if 0 < rightT then smoothStep01 rightT else 0)
  let fy := (if 0 < topT then smoothStep01 topT else 0)
    - (if 0 < bottomT then smoothStep01 bottomT else 0)
  (fx * AVOID_GAIN, fy * AVOID_GAIN)

/-- The `i`-th candidate abscissa drawn inside `pickWaypoint`
(script.js line 138); candidate `i` consumes stream entries `k+2i`, `k+2i+1`. -/
def candX (rnd : ℕ → ℝ) (k : ℕ) (w : ℝ) (i : ℕ) : ℝ :=
  WAYPOINT_MARGIN + rnd (k + 2 * i) * (w - 2 * WAYPOINT_MARGIN)

/-- The `i`-th candidate ordinate drawn inside `pickWaypoint` (script.js line 139). -/
def candY (rnd : ℕ → ℝ) (k : ℕ) (h : ℝ) (i : ℕ) : ℝ :=
  WAYPOINT_MARGIN + rnd (k + 2 * i + 1) * (h - 2 * WAYPOINT_MARGIN)

/-- The rejection test of the do-while loop (script.js line 141):
candidate `i` is too close when it is within a quarter width horizontally
AND a quarter height vertically of the current position. -/
def closeCand (rnd : ℕ → ℝ) (k : ℕ) (w h x y : ℝ) (i : ℕ) : Prop :=
  |candX rnd k w i - x| < w * 0.25 ∧ |candY rnd k h i - y| < h * 0.25

/-- The do-while loop of `pickWaypoint` (script.js lines 137-141): starting at
attempt `i`, keep resampling while fewer than 10 attempts have been made and
the current candidate is too close; returns the index of the accepted attempt. -/
def pickIdxAux (rnd : ℕ → ℝ) (k : ℕ) (w h x y : ℝ) : ℕ → ℕ → ℕ
  | 0, i => i
  | fuel + 1, i =>
    if i + 1 < 10 ∧ closeCand rnd k w h x y i then pickIdxAux rnd k w h x y fuel (i + 1) else i

/-- Index of the attempt accepted by `pickWaypoint`'s loop (10 units of fuel
suffice because the loop guard `tries < 10` bounds the iteration count). -/
def pickIdx (rnd : ℕ → ℝ) (k : ℕ) (w h x y : ℝ) : ℕ :=
  pickIdxAux rnd k w h x y 10 0

/-- script.js lines 132-144: returns the new waypoint and its deadline
`now + WAYPOINT_TIMEOUT_MS * (0.7 + Math.random() * 0.8)`. -/
def pickWaypoint (rnd : ℕ → ℝ) (k : ℕ) (now w h x y : ℝ) : ℝ × ℝ × ℝ :=
  let j := pickIdx rnd k w h x y
  (candX rnd k w j, candY rnd k h j,
    now + WAYPOINT_TIMEOUT_MS * (0.7 + rnd (k + 2 * (j + 1)) * 0.8))

/-- script.js lines 204-205: exponential smoothing of the wander offset,
`offset + (target - offset) * clamp(dt * WANDER_SMOOTH_RATE, 0, 1)`. -/
def wanderOffsetOf (s : RState) (dt : ℝ) : ℝ :=
  s.wanderOffset + (s.wanderTarget - s.wanderOffset) * clamp (dt * WANDER_SMOOTH_RATE) 0 1

/-- script.js lines 213-216: guarded length of the waypoint vector. -/
def wlenOf (s : RState) : ℝ := safeLen (s.waypointX - s.x) (s.waypointY - s.y)

/-- script.js lines 219-221: the unnormalized sum of the four influence
vectors (cruise, weighted wander, edge repulsion, waypoint attraction). -/
def desNumOf (s : RState) (dt : ℝ) : ℝ × ℝ :=
  let wOff := wanderOffsetOf s dt
  let f := edgeRepulsion s.width s.height s.x s.y
  let wvx := s.waypointX - s.x
  let wvy := s.waypointY - s.y
  (Real.cos s.heading + 0.55 * Real.cos (s.heading + wOff) + f.1
      + WAYPOINT_GAIN * (wvx / wlenOf s),
    Real.sin s.heading + 0.55 * Real.sin (s.heading + wOff) + f.2
      + WAYPOINT_GAIN * (wvy / wlenOf s))

/-- script.js line 222: guarded length of the combined influence vector. -/
def desLenOf (s : RState) (dt : ℝ) : ℝ := safeLen (desNumOf s dt).1 (desNumOf s dt).2

/-- script.js line 226: heading of the normalized desired direction. -/
def desiredHeadingOf (s : RState) (dt : ℝ) : ℝ :=
  atan2 ((desNumOf s dt).2 / desLenOf s dt) ((desNumOf s dt).1 / desLenOf s dt)

/-- script.js line 227: `clamp(Math.hypot(fx, fy), 0, 1)`. -/
def repulseMagOf (s : RState) : ℝ :=
  clamp (hypot (edgeRepulsion s.width s.height s.x s.y).1
    (edgeRepulsion s.width s.height s.x s.y).2) 0 1

/-- script.js lines 228-229: clamped angular-distance contribution. -/
def angleFactorOf (s : RState) (dt : ℝ) : ℝ :=
  clamp (|normalizeAngle (desiredHeadingOf s dt - s.heading)| / (Real.pi / 2)) 0 1.6

/-- script.js line 230: `clamp(0.85 + 0.9 * repulseMag + 0.6 * angleFactor, 0.85, 2.1)`. -/
def dynamicFactorOf (s : RState) (dt : ℝ) : ℝ :=
  clamp (0.85 + 0.9 * repulseMagOf s + 0.6 * angleFactorOf s dt) 0.85 2.1

/-- script.js line 231: `BASE_MAX_TURN * dynamicFactor * dt`. -/
def maxTurnOf (s : RState) (dt : ℝ) : ℝ := BASE_MAX_TURN * dynamicFactorOf s dt * dt

/-- script.js lines 232-233: the clamped turn applied this frame. -/
def turnOf (s : RState) (dt : ℝ) : ℝ :=
  clamp (normalizeAngle (desiredHeadingOf s dt - s.heading)) (-maxTurnOf s dt) (maxTurnOf s dt)

/-- script.js line 234: `heading = normalizeAngle(heading + turn)`. -/
def headingOf (s : RState) (dt : ℝ) : ℝ := normalizeAngle (s.heading + turnOf s dt)

/-- script.js lines 197-201: the Launching-phase speed/mode update. In the
code `currentSpeed = SPEED * EASE_IN_OUT(t)` is overwritten by `SPEED` in the
same frame when `t >= 1`, which is what the `1 ≤ t` branch records. -/
def launchPhase (s : RState) (now : ℝ) : Mode × ℝ :=
  match s.mode with
  | Mode.launching =>
    let t := clamp ((now - s.launchStart) / LAUNCH_ACCEL_DURATION) 0 1
    if 1 ≤ t then (Mode.flight, SPEED) else (Mode.launching, SPEED * EASE_IN_OUT t)
  | m => (m, s.currentSpeed)

/-- script.js line 217: replace the waypoint when it is reached (guarded
length below `WAYPOINT_REACH_DIST`) or its deadline has elapsed. -/
def waypointAfter (rnd : ℕ → ℝ) (k : ℕ) (now : ℝ) (s : RState) : ℝ × ℝ × ℝ :=
  if wlenOf s < WAYPOINT_REACH_DIST ∨ s.waypointDeadline < now then
    pickWaypoint rnd k now s.width s.height s.x s.y
  else (s.waypointX, s.waypointY, s.waypointDeadline)

/-- The per-frame update `step` (script.js lines 187-244): `dtRaw` is the
elapsed seconds since the previous frame (capped at 0.06), `now` the current
timestamp in milliseconds, `(rnd, k)` the random stream and its cursor. -/
def step (rnd : ℕ → ℝ) (k : ℕ) (now dtRaw : ℝ) (s : RState) : RState :=
  let dt := min dtRaw 0.06
  if s.mode = Mode.idle then s
  else
    { s with
      mode := (launchPhase s now).1
      currentSpeed := (launchPhase s now).2
      wanderOffset := wanderOffsetOf s dt
      waypointX := (waypointAfter rnd k now s).1
      waypointY := (waypointAfter rnd k now s).2.1
      waypointDeadline := (waypointAfter rnd k now s).2.2
      heading := headingOf s dt
      x := clamp (s.x + Real.cos (headingOf s dt) * (launchPhase s now).2 * dt) 2 (s.width - 2)
      y := clamp (s.y + Real.sin (headingOf s dt) * (launchPhase s now).2 * dt) 2 (s.height - 2) }

/-- script.js lines 171-179: the launch trigger; a no-op unless Idle. -/
def launch (now : ℝ) (s : RState) : RState :=
  if s.mode = Mode.idle then
    { s with mode := Mode.launching, currentSpeed := 0, launchStart := now }
  else s

/-- script.js lines 79-100: seat the element at the title anchor (or the hero
center when no title exists), shifted 80px up, clamped by half sizes. -/
def seatAtTitle (anchor : Option (ℝ × ℝ)) (s : RState) : RState :=
  let c : ℝ × ℝ :=
    match anchor with
    | some p => p
    | none => (s.width * 0.5, s.height * 0.5)
  { s with
    x := clamp c.1 (s.halfW + 2) (s.width - s.halfW - 2)
    y := clamp (c.2 - 80) (s.halfH + 2) (s.height - s.halfH - 2) }

/-- script.js lines 109-117: re-measure the boundary and element, then
reclamp the position (by half sizes plus 8px) and the waypoint. -/
def resizeCore (w h hw hh : ℝ) (s : RState) : RState :=
  { s with
    width := w
    height := h
    halfW := hw
    halfH := hh
    x := clamp s.x (hw + 8) (w - hw - 8)
    y := clamp s.y (hh + 8) (h - hh - 8)
    waypointX := clamp s.waypointX WAYPOINT_MARGIN (w - WAYPOINT_MARGIN)
    waypointY := clamp s.waypointY WAYPOINT_MARGIN (h - WAYPOINT_MARGIN) }

/-- script.js lines 109-119: the resize handler; after reclamping, re-seat at
the title when still Idle. -/
def resize (w h hw hh : ℝ) (anchor : Option (ℝ × ℝ)) (s : RState) : RState :=
  if s.mode = Mode.idle then seatAtTitle anchor (resizeCore w h hw hh s)
  else resizeCore w h hw hh s

/-- script.js lines 122-128: nudge the wander target by a random jitter step,
clamped to the wander band. -/
def nudgeWander (r t : ℝ) : ℝ :=
  clamp (t + (r * 2 - 1) * WANDER_JITTER) (-WANDER_MAX) WANDER_MAX

/-- The events that can mutate the controller state; each constructor carries
the environment data (timestamps, random stream, measurements) it reads. -/
inductive Ev
  | launch (now : ℝ)
  | frame (rnd : ℕ → ℝ) (k : ℕ) (now dt : ℝ)
  | resize (w h hw hh : ℝ) (anchor : Option (ℝ × ℝ))
  | nudge (r : ℝ)
  | idleSeat (anchor : Option (ℝ × ℝ))

/-- Dispatch one event to its handler; `idleSeat` is the 250ms idle polling
tick (script.js lines 182-184), `nudge` the wander timer (line 130). -/
def applyEv (e : Ev) (s : RState) : RState :=
  match e with
  | Ev.launch now => launch now s
  | Ev.frame rnd k now dt => step rnd k now dt s
  | Ev.resize w h hw hh anchor => resize w h hw hh anchor s
  | Ev.nudge r => { s with wanderTarget := nudgeWander r s.wanderTarget }
  | Ev.idleSeat anchor => if s.mode = Mode.idle then seatAtTitle anchor s else s

/-- Run a list of events from a state, oldest first. -/
def run (es : List Ev) (s : RState) : RState := es.foldl (fun a e => applyEv e a) s

/-- Position of a mode in the forward order Idle, Launching, Flight. -/
def modeOrd : Mode → ℕ
  | Mode.idle => 0
  | Mode.launching => 1
  | Mode.flight => 2

/-- A degenerate random stream, used for concrete evaluations. -/
def rnd0 : ℕ → ℝ := fun _ => 0

/-- A concrete in-flight state on a 100x100 boundary with a 40x40 element. -/
def sFlight : RState :=
  { mode := Mode.flight
    currentSpeed := 160
    x := 0
    y := 50
    heading := 0
    wanderOffset := 0
    wanderTarget := 0
    waypointX := 100
    waypointY := 50
    waypointDeadline := 1
    launchStart := 0
    width := 100
    height := 100
    halfW := 20
    halfH := 20 }

/-- A concrete Launching-phase state. -/
def sLaunch : RState := { sFlight with mode := Mode.launching, currentSpeed := 0 }

/-- A concrete Idle state. -/
def sIdle : RState := { sFlight with mode := Mode.idle, currentSpeed := 0 }

end

/-! ## Shared lemmas -/

theorem clamp_le_right (v lo hi : ℝ) : clamp v lo hi ≤ hi :=
  min_le_left _ _

theorem left_le_clamp (v : ℝ) {lo hi : ℝ} (h : lo ≤ hi) : lo ≤ clamp v lo hi :=
  le_min h (le_max_left _ _)

theorem clamp_mem_Icc (v : ℝ) {lo hi : ℝ} (h : lo ≤ hi) : clamp v lo hi ∈ Set.Icc lo hi :=
  ⟨left_le_clamp v h, clamp_le_right v lo hi⟩

theorem abs_clamp_le (v : ℝ) {M : ℝ} (hM : 0 ≤ M) : |clamp v (-M) M| ≤ M :=
  abs_le.2 ⟨left_le_clamp v (by linarith), clamp_le_right v (-M) M⟩

theorem clamp_of_mem (v : ℝ) {lo hi : ℝ} (h1 : lo ≤ v) (h2 : v ≤ hi) : clamp v lo hi = v := by
  unfold clamp
  rw [max_eq_right h1, min_eq_right h2]

theorem normalizeAngle_eq_toReal (a : ℝ) :
    normalizeAngle a = ((a : Real.Angle)).toReal := by
  have hcoe : ((((a : Real.Angle)).toReal : ℝ) : Real.Angle) = (a : Real.Angle) :=
    Real.Angle.coe_toReal _
  have hc : Real.cos (((a : Real.Angle)).toReal) = Real.cos a := by
    rw [← Real.Angle.cos_coe, hcoe, Real.Angle.cos_coe]
  have hs : Real.sin (((a : Real.Angle)).toReal) = Real.sin a := by
    rw [← Real.Angle.sin_coe, hcoe, Real.Angle.sin_coe]
  unfold normalizeAngle atan2
  rw [← hc, ← hs, Complex.ofReal_cos, Complex.ofReal_sin]
  exact Complex.arg_cos_add_sin_mul_I (Real.Angle.toReal_mem_Ioc _)

theorem normalizeAngle_mem_Ioc (a : ℝ) :
    normalizeAngle a ∈ Set.Ioc (-Real.pi) Real.pi := by
  rw [normalizeAngle_eq_toReal]
  exact Real.Angle.toReal_mem_Ioc _

theorem normalizeAngle_eq_self {a : ℝ} (h : a ∈ Set.Ioc (-Real.pi) Real.pi) :
    normalizeAngle a = a := by
  rw [normalizeAngle_eq_toReal]
  exact Real.Angle.toReal_coe_eq_self_iff_mem_Ioc.2 h

theorem normalizeAngle_coe (a : ℝ) :
    ((normalizeAngle a : ℝ) : Real.Angle) = (a : Real.Angle) := by
  rw [normalizeAngle_eq_toReal]
  exact Real.Angle.coe_toReal _

theorem normalizeAngle_zero : normalizeAngle 0 = 0 :=
  normalizeAngle_eq_self ⟨by linarith [Real.pi_pos], Real.pi_pos.le⟩

theorem normalizeAngle_add_sub (h t : ℝ) (ht : t ∈ Set.Ioc (-Real.pi) Real.pi) :
    normalizeAngle (normalizeAngle (h + t) - h) = t := by
  have hcoe : ((normalizeAngle (h + t) - h : ℝ) : Real.Angle) = (t : Real.Angle) := by
    rw [Real.Angle.coe_sub, normalizeAngle_coe, Real.Angle.coe_add]
    abel
  rw [normalizeAngle_eq_toReal, hcoe]
  exact Real.Angle.toReal_coe_eq_self_iff_mem_Ioc.2 ht

theorem EASE_IN_OUT_clamp (t : ℝ) : EASE_IN_OUT (clamp t 0 1) = EASE_IN_OUT t := by
  unfold EASE_IN_OUT clamp
  rcases le_or_lt t 0 with h0 | h0
  · rw [max_eq_left h0, min_eq_right (by norm_num : (0 : ℝ) ≤ 1)]
    simp [h0]
  · rcases le_or_lt 1 t with h1 | h1
    · rw [max_eq_right (by linarith : (0 : ℝ) ≤ t), min_eq_left h1]
      rw [if_neg (by norm_num), if_pos le_rfl, if_neg (by linarith), if_pos h1]
    · rw [max_eq_right (by linarith : (0 : ℝ) ≤ t), min_eq_right (by linarith : t ≤ 1)]

theorem step_of_ne_idle (rnd : ℕ → ℝ) (k : ℕ) (now dtRaw : ℝ) (s : RState)
    (h : s.mode ≠ Mode.idle) :
    step rnd k now dtRaw s =
      { s with
        mode := (launchPhase s now).1
        currentSpeed := (launchPhase s now).2
        wanderOffset := wanderOffsetOf s (min dtRaw 0.06)
        waypointX := (waypointAfter rnd k now s).1
        waypointY := (waypointAfter rnd k now s).2.1
        waypointDeadline := (waypointAfter rnd k now s).2.2
        heading := headingOf s (min dtRaw 0.06)
        x := clamp (s.x + Real.cos (headingOf s (min dtRaw 0.06)) * (launchPhase s now).2
          * min dtRaw 0.06) 2 (s.width - 2)
        y := clamp (s.y + Real.sin (headingOf s (min dtRaw 0.06)) * (launchPhase s now).2
          * min dtRaw 0.06) 2 (s.height - 2) } := by
  unfold step
  rw [if_neg h]

theorem step_of_idle (rnd : ℕ → ℝ) (k : ℕ) (now dtRaw : ℝ) (s : RState)
    (h : s.mode = Mode.idle) : step rnd k now dtRaw s = s := by
  unfold step
  rw [if_pos h]

/-! ## Claim C1 -/

/-- C1 fails as stated: from the in-flight state `sFlight` (half footprint 20,
boundary 100 wide, position at the left wall), a frame with `dt = 0` clamps
the position to `x = 2`, which violates the claimed lower bound
`halfW + margin ≤ x` (here `20 + 2 = 22 > 2`): the per-frame clamp uses the
fixed margin 2 with no half-footprint inset. -/
theorem c1_counterexample :
    (step rnd0 0 0 0 sFlight).x = 2 ∧
      ¬ (sFlight.halfW + 2 ≤ (step rnd0 0 0 0 sFlight).x) := by
  have hm : sFlight.mode ≠ Mode.idle := by decide
  have hx : (step rnd0 0 0 0 sFlight).x = 2 := by
    rw [step_of_ne_idle rnd0 0 0 0 sFlight hm]
    show clamp (sFlight.x + Real.cos (headingOf sFlight (min 0 0.06))
      * (launchPhase sFlight 0).2 * min 0 0.06) 2 (sFlight.width - 2) = 2
    rw [min_eq_left (by norm_num : (0 : ℝ) ≤ 0.06), mul_zero, add_zero]
    show clamp 0 2 ((100 : ℝ) - 2) = 2
    unfold clamp
    rw [max_eq_left (by norm_num : (0 : ℝ) ≤ 2), min_eq_right (by norm_num : (2 : ℝ) ≤ 100 - 2)]
  refine ⟨hx, ?_⟩
  rw [hx]
  show ¬ ((20 : ℝ) + 2 ≤ 2)
  norm_num

/-- C1 (amended): after a per-frame update in a non-Idle mode the position is
clamped into the rectangle inset by the fixed margin 2 (not by the half
footprint); the half-footprint inset holds for the re-seat (`seatAtTitle`,
margin 2) and for the resize reclamp (margin 8). -/
theorem c1_position_containment (rnd : ℕ → ℝ) (k : ℕ) (now dtRaw : ℝ) (s : RState)
    (anchor : Option (ℝ × ℝ)) :
    (s.mode ≠ Mode.idle → 2 ≤ s.width - 2 → 2 ≤ s.height - 2 →
      (step rnd k now dtRaw s).x ∈ Set.Icc 2 (s.width - 2) ∧
      (step rnd k now dtRaw s).y ∈ Set.Icc 2 (s.height - 2)) ∧
    (s.halfW + 2 ≤ s.width - s.halfW - 2 → s.halfH + 2 ≤ s.height - s.halfH - 2 →
      (seatAtTitle anchor s).x ∈ Set.Icc (s.halfW + 2) (s.width - s.halfW - 2) ∧
      (seatAtTitle anchor s).y ∈ Set.Icc (s.halfH + 2) (s.height - s.halfH - 2)) ∧
    (∀ w h hw hh : ℝ, s.mode ≠ Mode.idle → hw + 8 ≤ w - hw - 8 → hh + 8 ≤ h - hh - 8 →
      (resize w h hw hh anchor s).x ∈ Set.Icc (hw + 8) (w - hw - 8) ∧
      (resize w h hw hh anchor s).y ∈ Set.Icc (hh + 8) (h - hh - 8)) := by
  refine ⟨?_, ?_, ?_⟩
  · intro hm hwd hht
    rw [step_of_ne_idle rnd k now dtRaw s hm]
    exact ⟨clamp_mem_Icc _ hwd, clamp_mem_Icc _ hht⟩
  · intro hwd hht
    exact ⟨clamp_mem_Icc _ hwd, clamp_mem_Icc _ hht⟩
  · intro w h hw hh hm hwd hht
    unfold resize
    rw [if_neg hm]
    exact ⟨clamp_mem_Icc _ hwd, clamp_mem_Icc _ hht⟩

/-- Witness for the amended C1 at a concrete in-flight state. -/
theorem c1_position_containment_witness :
    ((step rnd0 0 0 0.016 sFlight).x ∈ Set.Icc 2 (sFlight.width - 2) ∧
      (step rnd0 0 0 0.016 sFlight).y ∈ Set.Icc 2 (sFlight.height - 2)) ∧
    ((seatAtTitle none sFlight).x ∈ Set.Icc (sFlight.halfW + 2)
        (sFlight.width - sFlight.halfW - 2) ∧
      (seatAtTitle none sFlight).y ∈ Set.Icc (sFlight.halfH + 2)
        (sFlight.height - sFlight.halfH - 2)) := by
  have h := c1_position_containment rnd0 0 0 0.016 sFlight none
  refine ⟨h.1 (by decide) ?_ ?_, h.2.1 ?_ ?_⟩
  · show (2 : ℝ) ≤ 100 - 2
    norm_num
  · show (2 : ℝ) ≤ 100 - 2
    norm_num
  · show (20 : ℝ) + 2 ≤ 100 - 20 - 2
    norm_num
  · show (20 : ℝ) + 2 ≤ 100 - 20 - 2
    norm_num

/-! ## Claim C2 -/

/-- C2: while Launching, the per-frame update sets the speed to
`SPEED * EASE_IN_OUT t` with `t` the elapsed fraction of the acceleration
duration; as soon as `t ≥ 1` the mode becomes Flight with the speed pinned
exactly to `SPEED`, and while `t < 1` the mode stays Launching. -/
theorem c2_launch_speed (rnd : ℕ → ℝ) (k : ℕ) (now dtRaw : ℝ) (s : RState)
    (hmode : s.mode = Mode.launching) :
    (step rnd k now dtRaw s).currentSpeed
        = SPEED * EASE_IN_OUT ((now - s.launchStart) / LAUNCH_ACCEL_DURATION) ∧
    (1 ≤ (now - s.launchStart) / LAUNCH_ACCEL_DURATION →
      (step rnd k now dtRaw s).mode = Mode.flight ∧
        (step rnd k now dtRaw s).currentSpeed = SPEED) ∧
    ((now - s.launchStart) / LAUNCH_ACCEL_DURATION < 1 →
      (step rnd k now dtRaw s).mode = Mode.launching) := by
  have hne : s.mode ≠ Mode.idle := by
    rw [hmode]
    decide
  have hlp : launchPhase s now =
      if 1 ≤ clamp ((now - s.launchStart) / LAUNCH_ACCEL_DURATION) 0 1 then
        (Mode.flight, SPEED)
      else (Mode.launching,
        SPEED * EASE_IN_OUT (clamp ((now - s.launchStart) / LAUNCH_ACCEL_DURATION) 0 1)) := by
    unfold launchPhase
    rw [hmode]
  have hone : 1 ≤ clamp ((now - s.launchStart) / LAUNCH_ACCEL_DURATION) 0 1 ↔
      1 ≤ (now - s.launchStart) / LAUNCH_ACCEL_DURATION := by
    unfold clamp
    rw [le_min_iff, le_max_iff]
    constructor
    · rintro ⟨-, h0 | ht⟩
      · linarith
      · exact ht
    · intro ht
      exact ⟨le_rfl, Or.inr ht⟩
  rw [step_of_ne_idle rnd k now dtRaw s hne]
  refine ⟨?_, ?_, ?_⟩
  · show (launchPhase s now).2 = _
    rw [hlp]
    by_cases ht : 1 ≤ clamp ((now - s.launchStart) / LAUNCH_ACCEL_DURATION) 0 1
    · rw [if_pos ht]
      have ht' : 1 ≤ (now - s.launchStart) / LAUNCH_ACCEL_DURATION := hone.1 ht
      show SPEED = SPEED * EASE_IN_OUT ((now - s.launchStart) / LAUNCH_ACCEL_DURATION)
      unfold EASE_IN_OUT
      rw [if_neg (by linarith), if_pos ht', mul_one]
    · rw [if_neg ht]
      show SPEED * EASE_IN_OUT _ = SPEED * EASE_IN_OUT _
      rw [EASE_IN_OUT_clamp]
  · intro ht
    have ht' := hone.2 ht
    constructor
    · show (launchPhase s now).1 = Mode.flight
      rw [hlp, if_pos ht']
    · show (launchPhase s now).2 = SPEED
      rw [hlp, if_pos ht']
  · intro ht
    have ht' : ¬ 1 ≤ clamp ((now - s.launchStart) / LAUNCH_ACCEL_DURATION) 0 1 := by
      rw [hone]
      linarith
    show (launchPhase s now).1 = Mode.launching
    rw [hlp, if_neg ht']

/-- Witness for C2: from `sLaunch` at exactly the acceleration duration the
mode becomes Flight with speed pinned to `SPEED`. -/
theorem c2_launch_speed_witness :
    (step rnd0 0 1000 0.016 sLaunch).mode = Mode.flight ∧
      (step rnd0 0 1000 0.016 sLaunch).currentSpeed = SPEED := by
  refine (c2_launch_speed rnd0 0 1000 0.016 sLaunch rfl).2.1 ?_
  show (1 : ℝ) ≤ (1000 - 0) / 1000
  norm_num

/-! ## Claim C7 -/

/-- C7: invoking the launch trigger in a non-Idle state leaves the motion
state entirely unchanged, so a second activation (click after click, click
after timeout, or timeout after click) has no effect. -/
theorem c7_launch_idempotent (n1 n2 : ℝ) (s : RState) :
    (s.mode ≠ Mode.idle → launch n1 s = s) ∧
    launch n2 (launch n1 s) = launch n1 s := by
  constructor
  · intro h
    unfold launch
    rw [if_neg h]
  · by_cases h : s.mode = Mode.idle
    · have hm : (launch n1 s).mode = Mode.launching := by
        unfold launch
        rw [if_pos h]
      have hne : (launch n1 s).mode ≠ Mode.idle := by
        rw [hm]
        decide
      set u := launch n1 s with hu
      unfold launch
      rw [if_neg hne]
    · have h1 : launch n1 s = s := by
        unfold launch
        rw [if_neg h]
      rw [h1]
      unfold launch
      rw [if_neg h]

/-- Witness for C7: launching an already-flying state is a no-op. -/
theorem c7_launch_idempotent_witness : launch 5 sFlight = sFlight :=
  (c7_launch_idempotent 5 0 sFlight).1 (by decide)

/-! ## Claim C4 -/

/-- C4: in every frame the wrapped absolute heading change is bounded by
`maxTurnOf s dt = BASE_MAX_TURN * clamp(0.85 + 0.9*repulseMag + 0.6*angleFactor,
0.85, 2.1) * dt` with `dt` the capped frame delta. -/
theorem c4_turn_rate_bound (rnd : ℕ → ℝ) (k : ℕ) (now dtRaw : ℝ) (s : RState)
    (hdt : 0 ≤ dtRaw) :
    |normalizeAngle ((step rnd k now dtRaw s).heading - s.heading)|
      ≤ maxTurnOf s (min dtRaw 0.06) := by
  have hdt0 : 0 ≤ min dtRaw 0.06 := le_min hdt (by norm_num)
  have hdt6 : min dtRaw 0.06 ≤ 0.06 := min_le_right _ _
  have hdyn1 : dynamicFactorOf s (min dtRaw 0.06) ≤ 2.1 := clamp_le_right _ _ _
  have hdyn0 : 0.85 ≤ dynamicFactorOf s (min dtRaw 0.06) := left_le_clamp _ (by norm_num)
  have hpi := Real.pi_pos
  have hM0 : 0 ≤ maxTurnOf s (min dtRaw 0.06) := by
    unfold maxTurnOf BASE_MAX_TURN
    have h1 : (0 : ℝ) ≤ Real.pi * 1.1 := by nlinarith
    exact mul_nonneg (mul_nonneg h1 (by linarith)) hdt0
  have hMpi : maxTurnOf s (min dtRaw 0.06) < Real.pi := by
    unfold maxTurnOf BASE_MAX_TURN
    have h1 : dynamicFactorOf s (min dtRaw 0.06) * min dtRaw 0.06 ≤ 2.1 * 0.06 :=
      mul_le_mul hdyn1 hdt6 hdt0 (by norm_num)
    have h2 : 0 ≤ dynamicFactorOf s (min dtRaw 0.06) * min dtRaw 0.06 :=
      mul_nonneg (by linarith) hdt0
    nlinarith
  by_cases hm : s.mode = Mode.idle
  · rw [step_of_idle rnd k now dtRaw s hm, sub_self, normalizeAngle_zero, abs_zero]
    exact hM0
  · rw [step_of_ne_idle rnd k now dtRaw s hm]
    show |normalizeAngle (headingOf s (min dtRaw 0.06) - s.heading)| ≤ _
    have habs : |turnOf s (min dtRaw 0.06)| ≤ maxTurnOf s (min dtRaw 0.06) :=
      abs_clamp_le _ hM0
    have hmem : turnOf s (min dtRaw 0.06) ∈ Set.Ioc (-Real.pi) Real.pi := by
      obtain ⟨hlo, hhi⟩ := abs_le.1 habs
      exact ⟨by linarith, by linarith⟩
    unfold headingOf
    rw [normalizeAngle_add_sub _ _ hmem]
    exact habs

/-- Witness for C4 at a concrete in-flight state and frame. -/
theorem c4_turn_rate_bound_witness :
    |normalizeAngle ((step rnd0 0 0 0.016 sFlight).heading - sFlight.heading)|
      ≤ maxTurnOf sFlight (min 0.016 0.06) :=
  c4_turn_rate_bound rnd0 0 0 0.016 sFlight (by norm_num)

/-! ## Claim C6 -/

/-- C6: any per-frame update that reassigns the heading (i.e. any non-Idle
frame) leaves it in the half-open interval `(-pi, pi]`. -/
theorem c6_heading_normalized (rnd : ℕ → ℝ) (k : ℕ) (now dtRaw : ℝ) (s : RState)
    (h : s.mode ≠ Mode.idle) :
    (step rnd k now dtRaw s).heading ∈ Set.Ioc (-Real.pi) Real.pi := by
  rw [step_of_ne_idle rnd k now dtRaw s h]
  show headingOf s (min dtRaw 0.06) ∈ Set.Ioc (-Real.pi) Real.pi
  unfold headingOf
  exact normalizeAngle_mem_Ioc _

/-- Witness for C6 at a concrete in-flight state. -/
theorem c6_heading_normalized_witness :
    (step rnd0 0 0 0.016 sFlight).heading ∈ Set.Ioc (-Real.pi) Real.pi :=
  c6_heading_normalized rnd0 0 0 0.016 sFlight (by decide)

/-! ## Claim C9 -/

/-- C9: both vector normalizations of the per-frame update (the waypoint
direction length `wlenOf` and the blended direction length `desLenOf`) go
through `safeLen`, which is strictly positive for every input and substitutes
1 exactly when the true length is zero, so no division by zero occurs for any
state, `dt`, or boundary. -/
theorem c9_no_division_by_zero (s : RState) (dt a b : ℝ) :
    0 < wlenOf s ∧ 0 < desLenOf s dt ∧ 0 < safeLen a b ∧
      (hypot a b = 0 → safeLen a b = 1) := by
  have key : ∀ u v : ℝ, 0 < safeLen u v := by
    intro u v
    unfold safeLen
    by_cases h : hypot u v = 0
    · rw [if_pos h]
      norm_num
    · rw [if_neg h]
      have h0 : 0 ≤ hypot u v := by
        unfold hypot
        exact Real.sqrt_nonneg _
      exact h0.lt_of_ne (Ne.symm h)
  refine ⟨key _ _, key _ _, key _ _, fun h => ?_⟩
  unfold safeLen
  rw [if_pos h]

/-- Witness for C9: the zero vector gets the substituted divisor 1. -/
theorem c9_no_division_by_zero_witness : safeLen 0 0 = 1 := by
  have h : hypot (0 : ℝ) 0 = 0 := by
    unfold hypot
    norm_num
  exact (c9_no_division_by_zero sFlight 0 0 0).2.2.2 h

/-! ## Claim C10 -/

/-- C10: every wander-target nudge lands in `[-WANDER_MAX, WANDER_MAX]`; the
smoothed wander offset is a convex combination of offset and target (the
smoothing coefficient is clamped to `[0,1]`) and therefore stays in the band;
hence the wander direction deviates from the heading by at most `WANDER_MAX`. -/
theorem c10_wander_bounded (r dt : ℝ) (s : RState) :
    nudgeWander r s.wanderTarget ∈ Set.Icc (-WANDER_MAX) WANDER_MAX ∧
    (s.wanderOffset ∈ Set.Icc (-WANDER_MAX) WANDER_MAX →
      s.wanderTarget ∈ Set.Icc (-WANDER_MAX) WANDER_MAX →
      wanderOffsetOf s dt ∈ Set.Icc (-WANDER_MAX) WANDER_MAX) ∧
    (s.wanderOffset ∈ Set.Icc (-WANDER_MAX) WANDER_MAX →
      |s.heading + s.wanderOffset - s.heading| ≤ WANDER_MAX) := by
  have hM : 0 < WANDER_MAX := by
    unfold WANDER_MAX
    positivity
  refine ⟨clamp_mem_Icc _ (by linarith), ?_, ?_⟩
  · rintro ⟨ho1, ho2⟩ ⟨ht1, ht2⟩
    have hα0 : 0 ≤ clamp (dt * WANDER_SMOOTH_RATE) 0 1 := left_le_clamp _ (by norm_num)
    have hα1 : clamp (dt * WANDER_SMOOTH_RATE) 0 1 ≤ 1 := clamp_le_right _ _ _
    unfold wanderOffsetOf
    have hp1 : 0 ≤ (s.wanderOffset + WANDER_MAX) * (1 - clamp (dt * WANDER_SMOOTH_RATE) 0 1) :=
      mul_nonneg (by linarith) (by linarith)
    have hp2 : 0 ≤ (s.wanderTarget + WANDER_MAX) * clamp (dt * WANDER_SMOOTH_RATE) 0 1 :=
      mul_nonneg (by linarith) hα0
    have hp3 : 0 ≤ (WANDER_MAX - s.wanderOffset) * (1 - clamp (dt * WANDER_SMOOTH_RATE) 0 1) :=
      mul_nonneg (by linarith) (by linarith)
    have hp4 : 0 ≤ (WANDER_MAX - s.wanderTarget) * clamp (dt * WANDER_SMOOTH_RATE) 0 1 :=
      mul_nonneg (by linarith) hα0
    exact ⟨by nlinarith, by nlinarith⟩
  · rintro ⟨h1, h2⟩
    rw [add_sub_cancel_left]
    exact abs_le.2 ⟨h1, h2⟩

/-- Witness for C10 at a concrete state with zero offset and target. -/
theorem c10_wander_bounded_witness :
    nudgeWander 0 sFlight.wanderTarget ∈ Set.Icc (-WANDER_MAX) WANDER_MAX ∧
      wanderOffsetOf sFlight 0.016 ∈ Set.Icc (-WANDER_MAX) WANDER_MAX := by
  have hM : 0 < WANDER_MAX := by
    unfold WANDER_MAX
    positivity
  have hmem : sFlight.wanderOffset ∈ Set.Icc (-WANDER_MAX) WANDER_MAX := by
    show (0 : ℝ) ∈ Set.Icc (-WANDER_MAX) WANDER_MAX
    exact ⟨by linarith, by linarith⟩
  have hmem' : sFlight.wanderTarget ∈ Set.Icc (-WANDER_MAX) WANDER_MAX := by
    show (0 : ℝ) ∈ Set.Icc (-WANDER_MAX) WANDER_MAX
    exact ⟨by linarith, by linarith⟩
  exact ⟨(c10_wander_bounded 0 0.016 sFlight).1,
    (c10_wander_bounded 0 0.016 sFlight).2.1 hmem hmem'⟩

/-! ## Claim C8 -/

/-- C8: the repulsion force decomposes into the four per-edge terms scaled by
`AVOID_GAIN`; each term is the smoothstep of its penetration depth and
vanishes whenever the distance to that edge is at least `AVOID_MARGIN`; in
particular the left term at distance exactly `AVOID_MARGIN` is 0. -/
theorem c8_edge_repulsion (w h px py : ℝ) :
    edgeRepulsion w h px py
        = ((leftTerm px - rightTerm w px) * AVOID_GAIN,
          (topTerm py - bottomTerm h py) * AVOID_GAIN) ∧
    (AVOID_MARGIN ≤ px → leftTerm px = 0) ∧
    (AVOID_MARGIN ≤ w - px → rightTerm w px = 0) ∧
    (AVOID_MARGIN ≤ py → topTerm py = 0) ∧
    (AVOID_MARGIN ≤ h - py → bottomTerm h py = 0) ∧
    (0 < (AVOID_MARGIN - px) / AVOID_MARGIN →
      leftTerm px = smoothStep01 ((AVOID_MARGIN - px) / AVOID_MARGIN)) ∧
    leftTerm AVOID_MARGIN = 0 := by
  have hM : (0 : ℝ) < AVOID_MARGIN := by
    unfold AVOID_MARGIN
    norm_num
  have key : ∀ d : ℝ, AVOID_MARGIN ≤ d → ¬ (0 < (AVOID_MARGIN - d) / AVOID_MARGIN) := by
    intro d hd
    rw [not_lt]
    exact div_nonpos_iff.2 (Or.inr ⟨by linarith, hM.le⟩)
  refine ⟨rfl, ?_, ?_, ?_, ?_, ?_, ?_⟩
  · intro hd
    unfold leftTerm
    rw [if_neg (key px hd)]
  · intro hd
    unfold rightTerm
    rw [if_neg (key (w - px) hd)]
  · intro hd
    unfold topTerm
    rw [if_neg (key py hd)]
  · intro hd
    unfold bottomTerm
    rw [if_neg (key (h - py) hd)]
  · intro hd
    unfold leftTerm
    rw [if_pos hd]
  · unfold leftTerm
    rw [if_neg (key AVOID_MARGIN le_rfl)]

/-- Witness for C8: at 140px (= `AVOID_MARGIN`) from the left and right edges
both horizontal terms vanish. -/
theorem c8_edge_repulsion_witness : leftTerm 140 = 0 ∧ rightTerm 1000 140 = 0 := by
  have h := c8_edge_repulsion 1000 1000 140 500
  refine ⟨h.2.1 ?_, h.2.2.1 ?_⟩
  · show AVOID_MARGIN ≤ 140
    unfold AVOID_MARGIN
    norm_num
  · show AVOID_MARGIN ≤ 1000 - 140
    unfold AVOID_MARGIN
    norm_num

/-! ## Claim C5 -/

theorem pickIdxAux_le_nine (rnd : ℕ → ℝ) (k : ℕ) (w h x y : ℝ) :
    ∀ fuel i, i ≤ 9 → pickIdxAux rnd k w h x y fuel i ≤ 9 := by
  intro fuel
  induction fuel with
  | zero =>
    intro i hi
    exact hi
  | succ fuel ih =>
    intro i hi
    simp only [pickIdxAux]
    split_ifs with hc
    · have h1 : i + 1 < 10 := hc.1
      exact ih (i + 1) (by omega)
    · exact hi

theorem pickIdxAux_close (rnd : ℕ → ℝ) (k : ℕ) (w h x y : ℝ) :
    ∀ fuel i m, i ≤ m → m < pickIdxAux rnd k w h x y fuel i →
      closeCand rnd k w h x y m := by
  intro fuel
  induction fuel with
  | zero =>
    intro i m him hm
    simp only [pickIdxAux] at hm
    omega
  | succ fuel ih =>
    intro i m him hm
    simp only [pickIdxAux] at hm
    split_ifs at hm with hc
    · rcases eq_or_lt_of_le him with heq | hlt
      · subst heq
        exact hc.2
      · exact ih (i + 1) m hlt hm
    · omega

theorem pickIdxAux_exit (rnd : ℕ → ℝ) (k : ℕ) (w h x y : ℝ) :
    ∀ fuel i, 10 ≤ i + fuel →
      pickIdxAux rnd k w h x y fuel i + 1 < 10 →
      ¬ closeCand rnd k w h x y (pickIdxAux rnd k w h x y fuel i) := by
  intro fuel
  induction fuel with
  | zero =>
    intro i hfi hlt
    simp only [pickIdxAux] at hlt
    omega
  | succ fuel ih =>
    intro i hfi hlt
    simp only [pickIdxAux] at hlt ⊢
    split_ifs at hlt ⊢ with hc
    · exact ih (i + 1) (by omega) hlt
    · intro hcl
      exact hc ⟨by omega, hcl⟩

/-- C5: `pickWaypoint` returns the candidate of the accepted attempt, whose
coordinates lie in the rectangle inset by `WAYPOINT_MARGIN`; every attempt
before the accepted one was rejected as too close (within 25% of the width
AND 25% of the height of the current position); only the tenth attempt
(index 9) may be accepted while still close; and the new deadline is the
current time plus the timeout scaled by a factor in `[0.7, 1.5]`. -/
theorem c5_pick_waypoint (rnd : ℕ → ℝ) (k : ℕ) (now w h x y : ℝ)
    (hr : ∀ n, 0 ≤ rnd n ∧ rnd n < 1)
    (hw : 2 * WAYPOINT_MARGIN ≤ w) (hh : 2 * WAYPOINT_MARGIN ≤ h) :
    (pickWaypoint rnd k now w h x y).1 ∈ Set.Icc WAYPOINT_MARGIN (w - WAYPOINT_MARGIN) ∧
    (pickWaypoint rnd k now w h x y).2.1 ∈ Set.Icc WAYPOINT_MARGIN (h - WAYPOINT_MARGIN) ∧
    pickIdx rnd k w h x y ≤ 9 ∧
    (∀ i, i < pickIdx rnd k w h x y → closeCand rnd k w h x y i) ∧
    (pickIdx rnd k w h x y < 9 → ¬ closeCand rnd k w h x y (pickIdx rnd k w h x y)) ∧
    (pickWaypoint rnd k now w h x y).1 = candX rnd k w (pickIdx rnd k w h x y) ∧
    (pickWaypoint rnd k now w h x y).2.1 = candY rnd k h (pickIdx rnd k w h x y) ∧
    (pickWaypoint rnd k now w h x y).2.2 ∈
      Set.Icc (now + WAYPOINT_TIMEOUT_MS * 0.7) (now + WAYPOINT_TIMEOUT_MS * 1.5) := by
  have hcx : candX rnd k w (pickIdx rnd k w h x y)
      ∈ Set.Icc WAYPOINT_MARGIN (w - WAYPOINT_MARGIN) := by
    obtain ⟨h0, h1⟩ := hr (k + 2 * pickIdx rnd k w h x y)
    unfold candX
    constructor
    · nlinarith
    · nlinarith
  have hcy : candY rnd k h (pickIdx rnd k w h x y)
      ∈ Set.Icc WAYPOINT_MARGIN (h - WAYPOINT_MARGIN) := by
    obtain ⟨h0, h1⟩ := hr (k + 2 * pickIdx rnd k w h x y + 1)
    unfold candY
    constructor
    · nlinarith
    · nlinarith
  have hdl : (pickWaypoint rnd k now w h x y).2.2 ∈
      Set.Icc (now + WAYPOINT_TIMEOUT_MS * 0.7) (now + WAYPOINT_TIMEOUT_MS * 1.5) := by
    obtain ⟨h0, h1⟩ := hr (k + 2 * (pickIdx rnd k w h x y + 1))
    have hT : (0 : ℝ) ≤ WAYPOINT_TIMEOUT_MS := by
      unfold WAYPOINT_TIMEOUT_MS
      norm_num
    show now + WAYPOINT_TIMEOUT_MS * (0.7 + rnd (k + 2 * (pickIdx rnd k w h x y + 1)) * 0.8)
      ∈ Set.Icc (now + WAYPOINT_TIMEOUT_MS * 0.7) (now + WAYPOINT_TIMEOUT_MS * 1.5)
    constructor
    · nlinarith
    · nlinarith
  refine ⟨hcx, hcy, pickIdxAux_le_nine rnd k w h x y 10 0 (by omega), ?_, ?_, rfl, rfl, hdl⟩
  · intro i hi
    exact pickIdxAux_close rnd k w h x y 10 0 i (Nat.zero_le _) hi
  · intro h9
    have h9' : pickIdxAux rnd k w h x y 10 0 + 1 < 10 := by
      have : pickIdx rnd k w h x y = pickIdxAux rnd k w h x y 10 0 := rfl
      omega
    exact pickIdxAux_exit rnd k w h x y 10 0 (by omega) h9'

/-- Witness for C5 with the all-zeros stream on a 300x300 boundary. -/
theorem c5_pick_waypoint_witness :
    (pickWaypoint rnd0 0 0 300 300 0 0).1 ∈ Set.Icc WAYPOINT_MARGIN (300 - WAYPOINT_MARGIN) ∧
    (pickWaypoint rnd0 0 0 300 300 0 0).2.1 ∈ Set.Icc WAYPOINT_MARGIN (300 - WAYPOINT_MARGIN) ∧
    pickIdx rnd0 0 300 300 0 0 ≤ 9 ∧
    (pickWaypoint rnd0 0 0 300 300 0 0).2.2 ∈
      Set.Icc (0 + WAYPOINT_TIMEOUT_MS * 0.7) (0 + WAYPOINT_TIMEOUT_MS * 1.5) := by
  have h := c5_pick_waypoint rnd0 0 0 300 300 0 0
    (fun n => ⟨le_rfl, by norm_num [rnd0]⟩)
    (by norm_num [WAYPOINT_MARGIN]) (by norm_num [WAYPOINT_MARGIN])
  exact ⟨h.1, h.2.1, h.2.2.1, h.2.2.2.2.2.2.2⟩

/-! ## Claim C3 -/

theorem launchPhase_fst (s : RState) (now : ℝ) :
    (launchPhase s now).1 = s.mode ∨
      (s.mode = Mode.launching ∧ (launchPhase s now).1 = Mode.flight) := by
  unfold launchPhase
  cases hm : s.mode with
  | idle => exact Or.inl rfl
  | launching =>
    dsimp only
    split_ifs with ht
    · exact Or.inr ⟨rfl, rfl⟩
    · exact Or.inl rfl
  | flight => exact Or.inl rfl

theorem applyEv_mode (e : Ev) (s : RState) :
    modeOrd s.mode ≤ modeOrd ((applyEv e s).mode) ∧
    ((applyEv e s).mode = Mode.flight → s.mode = Mode.launching ∨ s.mode = Mode.flight) ∧
    (s.mode = Mode.flight → (applyEv e s).mode = Mode.flight) := by
  cases e with
  | launch now =>
    by_cases hm : s.mode = Mode.idle
    · have key : (applyEv (Ev.launch now) s).mode = Mode.launching := by
        show (launch now s).mode = Mode.launching
        unfold launch
        rw [if_pos hm]
      rw [key]
      refine ⟨?_, ?_, ?_⟩
      · rw [hm]
        decide
      · intro hf
        exact absurd hf (by decide)
      · intro hf
        rw [hm] at hf
        exact absurd hf (by decide)
    · have key : applyEv (Ev.launch now) s = s := by
        show launch now s = s
        unfold launch
        rw [if_neg hm]
      rw [key]
      exact ⟨le_rfl, fun hf => Or.inr hf, fun hf => hf⟩
  | frame rnd k now dt =>
    by_cases hm : s.mode = Mode.idle
    · have hs : applyEv (Ev.frame rnd k now dt) s = s := step_of_idle rnd k now dt s hm
      rw [hs]
      exact ⟨le_rfl, fun hf => Or.inr hf, fun hf => hf⟩
    · have key : (applyEv (Ev.frame rnd k now dt) s).mode = (launchPhase s now).1 := by
        show (step rnd k now dt s).mode = (launchPhase s now).1
        rw [step_of_ne_idle rnd k now dt s hm]
      rw [key]
      rcases launchPhase_fst s now with heq | ⟨hl, hf⟩
      · rw [heq]
        exact ⟨le_rfl, fun hf => Or.inr hf, fun hf => hf⟩
      · rw [hf, hl]
        refine ⟨by decide, fun _ => Or.inl rfl, fun _ => rfl⟩
  | resize w h hw hh anchor =>
    have key : (applyEv (Ev.resize w h hw hh anchor) s).mode = s.mode := by
      show (resize w h hw hh anchor s).mode = s.mode
      unfold resize
      split_ifs with hc
      · rfl
      · rfl
    rw [key]
    exact ⟨le_rfl, fun hf => Or.inr hf, fun hf => hf⟩
  | nudge r =>
    exact ⟨le_rfl, fun hf => Or.inr hf, fun hf => hf⟩
  | idleSeat anchor =>
    have key : (applyEv (Ev.idleSeat anchor) s).mode = s.mode := by
      show (if s.mode = Mode.idle then seatAtTitle anchor s else s).mode = s.mode
      split_ifs with hc
      · rfl
      · rfl
    rw [key]
    exact ⟨le_rfl, fun hf => Or.inr hf, fun hf => hf⟩

/-- C3: along any interleaving of activation, frame, resize, wander and
idle-seat events, the mode index is monotone (never moves backward through
Idle, Launching, Flight), Flight is terminal, and a run that ends in Flight
either started there or passed through a state whose mode was Launching. -/
theorem c3_mode_monotone (es : List Ev) (s : RState) :
    modeOrd s.mode ≤ modeOrd ((run es s).mode) ∧
    (s.mode = Mode.flight → (run es s).mode = Mode.flight) ∧
    ((run es s).mode = Mode.flight →
      s.mode = Mode.flight ∨
        ∃ pre suf, es = pre ++ suf ∧ (run pre s).mode = Mode.launching) := by
  induction es generalizing s with
  | nil =>
    exact ⟨le_rfl, fun hf => hf, fun hf => Or.inl hf⟩
  | cons e es ih =>
    have hrun : run (e :: es) s = run es (applyEv e s) := rfl
    obtain ⟨h1, h2, h3⟩ := applyEv_mode e s
    obtain ⟨ih1, ih2, ih3⟩ := ih (applyEv e s)
    rw [hrun]
    refine ⟨le_trans h1 ih1, ?_, ?_⟩
    · intro hf
      exact ih2 (h3 hf)
    · intro hf
      rcases ih3 hf with hf1 | ⟨pre, suf, hps, hl⟩
      · rcases h2 hf1 with hlaunch | hflight
        · exact Or.inr ⟨[], e :: es, rfl, hlaunch⟩
        · exact Or.inl hflight
      · refine Or.inr ⟨e :: pre, suf, ?_, ?_⟩
        · rw [hps]
          rfl
        · show (run (e :: pre) s).mode = Mode.launching
          rw [show run (e :: pre) s = run pre (applyEv e s) from rfl]
          exact hl

/-- Witness for C3: launching from an idle state moves the mode forward, and
an in-flight state stays in Flight. -/
theorem c3_mode_monotone_witness :
    modeOrd sIdle.mode ≤ modeOrd ((run [Ev.launch 0] sIdle).mode) ∧
      (run [Ev.launch 0] sFlight).mode = Mode.flight :=
  ⟨(c3_mode_monotone [Ev.launch 0] sIdle).1,
    (c3_mode_monotone [Ev.launch 0] sFlight).2.1 rfl⟩

end Rocket
